import Mathlib

/-!
Shallow embedding of `src/server.js` of the trading-signals-server
repository, together with theorems settling the specification claims.

JavaScript numbers are modelled as exact rationals (`ℚ`), millisecond
timestamps as integers (`Int`), and JS `Map`s as association lists with
JS `Map` semantics (`set` overwrites in place, `delete` removes,
`get` returns the bound value when present).
-/

namespace TradingSignals

/-- JS `Map.set`: overwrite in place when the key is present, else append. -/
def mapSet {κ α : Type} [DecidableEq κ] (m : List (κ × α)) (k : κ) (v : α) :
    List (κ × α) :=
  if m.any (fun kv => decide (kv.1 = k)) then
    m.map (fun kv => if kv.1 = k then (k, v) else kv)
  else
    m ++ [(k, v)]

/-- JS `Map.get`: the value bound to `k`, if any. -/
def mapGet {κ α : Type} [DecidableEq κ] (m : List (κ × α)) (k : κ) : Option α :=
  (m.find? (fun kv => decide (kv.1 = k))).map (·.2)

/-- JS `Map.delete`: remove every binding of `k`. -/
def mapDelete {κ α : Type} [DecidableEq κ] (m : List (κ × α)) (k : κ) :
    List (κ × α) :=
  m.filter (fun kv => decide (kv.1 ≠ k))

/-- The identity decoded from a verified JWT: `{ accountNumber, broker }`
(the payload signed at login in `server.js`). -/
structure Identity where
  accountNumber : String
  broker : String
deriving DecidableEq, Repr

/-- A stored signal, as built in `app.post('/api/signals')`. -/
structure Signal where
  id : String
  pair : String
  action : String
  rsi : ℚ
  macd : ℚ
  strength : ℚ
  quality : ℚ
  timestamp : Int
deriving DecidableEq, Repr

/-- An open position, as built in `app.post('/api/trade/open')`.
The JS field `type` is a Lean keyword, hence the guillemets. -/
structure Position where
  id : String
  accountNumber : String
  pair : String
  «type» : String
  lots : ℚ
  entryPrice : ℚ
  currentPrice : ℚ
  profit : ℚ
  stopLoss : ℚ
  takeProfit : ℚ
  openTime : Int
deriving DecidableEq, Repr

/-- The body of a signal-ingestion request (`req.body.signal`). -/
structure SignalBody where
  pair : String
  action : String
  rsi : ℚ
  macd : ℚ
  strength : ℚ
  quality : ℚ
deriving DecidableEq, Repr

/-- The signal record the ingestion handler builds from the request body:
`id = Date.now().toString()`, `timestamp = Date.now()`. -/
def mkSignal (now : Int) (body : SignalBody) : Signal :=
  { id := toString now
    pair := body.pair
    action := body.action
    rsi := body.rsi
    macd := body.macd
    strength := body.strength
    quality := body.quality
    timestamp := now }

/-- `signals.push(newSignal); if (signals.length > 50) signals.shift();` -/
def signalsPush (sigs : List Signal) (s : Signal) : List Signal :=
  let sigs := sigs ++ [s]
  if sigs.length > 50 then sigs.drop 1 else sigs

/-- `app.get('/api/signals')`: filter the stored signals by
`Date.now() - s.timestamp < 3600000`. -/
def getSignals (now : Int) (sigs : List Signal) : List Signal :=
  sigs.filter (fun s => decide (now - s.timestamp < 3600000))

/-- An HTTP response: status code plus a coarse rendering of the JSON body. -/
inductive HttpBody where
  | success (idField : String)
  | successPlain
  | errorMsg (msg : String)
  | signalList (sigs : List Signal)
  | positionList (ps : List Position)
  | loginOk (token : Identity) (accountNumber : String) (broker : String)
deriving DecidableEq, Repr

/-- An HTTP response produced by a route handler. -/
structure HttpResponse where
  status : Nat
  body : HttpBody
deriving DecidableEq, Repr

/-- `app.post('/api/signals')`. `apiKey` and `signal` are the (possibly
absent) fields of the request body; `mt4ApiKey` is `process.env.MT4_API_KEY`.
When `signal` is absent, `signal.pair` throws a `TypeError`, which the
`catch` turns into a 500 response; the store is then unchanged. -/
def postSignals (mt4ApiKey : String) (now : Int) (sigs : List Signal)
    (apiKey : Option String) (signal : Option SignalBody) :
    HttpResponse × List Signal :=
  if apiKey ≠ some mt4ApiKey then
    (⟨401, .errorMsg "Invalid API key"⟩, sigs)
  else
    match signal with
    | none => (⟨500, .errorMsg "Failed to process signal"⟩, sigs)
    | some body =>
        let newSignal := mkSignal now body
        (⟨200, .success newSignal.id⟩, signalsPush sigs newSignal)

/-- A stored user record, as created by the login handler. -/
structure User where
  accountNumber : String
  password : String
  broker : String
  isDemo : Bool
  createdAt : Int
deriving DecidableEq, Repr

/-- Model of `bcrypt.hash(p, 10)`: an injective one-way encoding of the
password (bcrypt's functional contract, collisions ignored). -/
def bcryptHash (p : String) : String := "bcrypt$" ++ p

/-- Model of `bcrypt.compare(p, h)`: true iff `h` is a hash of `p`. -/
def bcryptCompare (p h : String) : Bool := h == bcryptHash p

/-- Outcome of `app.post('/api/auth/login')`: either a signed token over
`{ accountNumber, broker }` plus the echoed fields, or a 401. -/
inductive LoginResult where
  | ok (token : Identity) (accountNumber : String) (broker : String)
  | invalidCredentials
deriving DecidableEq, Repr

/-- `app.post('/api/auth/login')`: fetch the user; if absent, create a demo
user hashed from the supplied password and store it; then compare the
supplied password against the stored hash. -/
def login (now : Int) (users : List (String × User))
    (accountNumber password : String) :
    LoginResult × List (String × User) :=
  let (user, users) :=
    match mapGet users accountNumber with
    | some u => (u, users)
    | none =>
        let u : User :=
          { accountNumber := accountNumber
            password := bcryptHash password
            broker := "Demo"
            isDemo := true
            createdAt := now }
        (u, mapSet users accountNumber u)
  if bcryptCompare password user.password then
    (.ok ⟨accountNumber, user.broker⟩ accountNumber user.broker, users)
  else
    (.invalidCredentials, users)

/-- The body of `app.post('/api/trade/open')`. -/
structure OpenBody where
  pair : String
  «type» : String
  lots : ℚ
  stopLoss : ℚ
  takeProfit : ℚ
deriving DecidableEq, Repr

/-- The position record built by the open-trade handler:
`id = Date.now().toString()`, entry price by side, current price fixed. -/
def mkPosition (now : Int) (accountNumber : String) (body : OpenBody) :
    Position :=
  { id := toString now
    accountNumber := accountNumber
    pair := body.pair
    «type» := body.«type»
    lots := body.lots
    entryPrice := if body.«type» = "BUY" then 3893.45 else 3893.20
    currentPrice := 3893.45
    profit := 0
    stopLoss := body.stopLoss
    takeProfit := body.takeProfit
    openTime := now }

/-- `app.post('/api/trade/open')`: create the position and `positions.set`
it under its id; respond with the id. -/
def openTrade (now : Int) (positions : List (String × Position))
    (accountNumber : String) (body : OpenBody) :
    HttpResponse × List (String × Position) :=
  let position := mkPosition now accountNumber body
  (⟨200, .success position.id⟩, mapSet positions position.id position)

/-- `app.post('/api/trade/close/:positionId')`: 404 when the id is absent
or owned by another account, else delete the position. -/
def closeTrade (positions : List (String × Position))
    (accountNumber positionId : String) :
    HttpResponse × List (String × Position) :=
  match mapGet positions positionId with
  | none => (⟨404, .errorMsg "Position not found"⟩, positions)
  | some position =>
      if position.accountNumber ≠ accountNumber then
        (⟨404, .errorMsg "Position not found"⟩, positions)
      else
        (⟨200, .successPlain⟩, mapDelete positions positionId)

/-- `app.get('/api/positions')`: the stored positions owned by the caller. -/
def getPositions (positions : List (String × Position))
    (accountNumber : String) : List Position :=
  (positions.map (·.2)).filter (fun p => decide (p.accountNumber = accountNumber))

/-- One ticker step on a single position (`setInterval`, every 2000 ms):
add the random perturbation to `currentPrice`, then recompute `profit` as
the directional price difference times `lots` times 100. -/
def tickPosition (randomChange : ℚ) (p : Position) : Position :=
  let currentPrice := p.currentPrice + randomChange
  let priceDiff :=
    if p.«type» = "BUY" then currentPrice - p.entryPrice
    else p.entryPrice - currentPrice
  { p with currentPrice := currentPrice, profit := priceDiff * p.lots * 100 }

/-- One full ticker cycle: every stored position is updated in place,
with its own draw `rand id` of the random perturbation. -/
def tickAll (rand : String → ℚ) (positions : List (String × Position)) :
    List (String × Position) :=
  positions.map (fun kv => (kv.1, tickPosition (rand kv.1) kv.2))

/-- An abstract WebSocket connection (one `ws` object), identified by a tag. -/
structure Conn where
  tag : Nat
deriving DecidableEq, Repr

/-- `ws.readyState` of the underlying transport. -/
inductive ReadyState where
  | CONNECTING
  | OPEN
  | CLOSING
  | CLOSED
deriving DecidableEq, Repr

/-- A server→client envelope:
`{type:"init"|"signal"|"position", signals/data: ...}`. -/
inductive WsMsg where
  | init (signals : List Signal)
  | signal (data : Signal)
  | position (data : Position)
deriving DecidableEq, Repr

/-- The session registry `activeConnections : Map ws → decoded identity`. -/
abbrev Registry := List (Conn × Identity)

/-- `broadcastSignal(signal)`: send a `signal` envelope to every registered
connection whose transport is `OPEN`.  The result lists the deliveries
performed, in registry iteration order. -/
def broadcastSignal (readyState : Conn → ReadyState) (registry : Registry)
    (signal : Signal) : List (Conn × WsMsg) :=
  (registry.filter (fun cu => decide (readyState cu.1 = .OPEN))).map
    (fun cu => (cu.1, WsMsg.signal signal))

/-- `broadcastPosition(position, accountNumber)`: send a `position` envelope
to every registered connection whose transport is `OPEN` and whose bound
identity's `accountNumber` equals the target account. -/
def broadcastPosition (readyState : Conn → ReadyState) (registry : Registry)
    (position : Position) (accountNumber : String) : List (Conn × WsMsg) :=
  (registry.filter (fun cu =>
      decide (readyState cu.1 = .OPEN) && decide (cu.2.accountNumber = accountNumber))).map
    (fun cu => (cu.1, WsMsg.position position))

/-- `wss.on('connection')`: extract the token from the URL query; missing
token → close, no registry interaction; `jwt.verify` failure (modelled by
`verify` returning `none`) → close; success → `activeConnections.set`, then
send the `init` envelope with `signals.slice(-10)`.  Returns the new
registry and the messages sent to the connecting socket. -/
def handleConnection (verify : String → Option Identity)
    (signals : List Signal) (registry : Registry)
    (ws : Conn) (token : Option String) : Registry × List (Conn × WsMsg) :=
  match token with
  | none => (registry, [])
  | some t =>
      match verify t with
      | none => (registry, [])
      | some decoded =>
          (mapSet registry ws decoded,
           [(ws, WsMsg.init (signals.drop (signals.length - 10)))])

/-- An event of the gateway / fan-out run: a connection attempt, a socket
close (which unregisters), or one of the two broadcasts. -/
inductive GatewayEvent where
  | connect (ws : Conn) (token : Option String)
  | close (ws : Conn)
  | signalBroadcast (signal : Signal)
  | positionBroadcast (position : Position) (accountNumber : String)

/-- One step of the run: the new registry and the deliveries it emits. -/
def stepGateway (verify : String → Option Identity)
    (readyState : Conn → ReadyState) (signals : List Signal)
    (registry : Registry) : GatewayEvent → Registry × List (Conn × WsMsg)
  | .connect ws token => handleConnection verify signals registry ws token
  | .close ws => (mapDelete registry ws, [])
  | .signalBroadcast s => (registry, broadcastSignal readyState registry s)
  | .positionBroadcast p a => (registry, broadcastPosition readyState registry p a)

/-- Run a trace of gateway events in order from a given registry,
accumulating every delivery made along the way. -/
def runGatewayFrom (verify : String → Option Identity)
    (readyState : Conn → ReadyState) (signals : List Signal)
    (registry : Registry) : List GatewayEvent → Registry × List (Conn × WsMsg)
  | [] => (registry, [])
  | e :: tr =>
      let (registry', sent) := stepGateway verify readyState signals registry e
      let (registry'', rest) := runGatewayFrom verify readyState signals registry' tr
      (registry'', sent ++ rest)

/-- Run a trace of gateway events from the initial empty registry. -/
def runGateway (verify : String → Option Identity)
    (readyState : Conn → ReadyState) (signals : List Signal)
    (tr : List GatewayEvent) : Registry × List (Conn × WsMsg) :=
  runGatewayFrom verify readyState signals [] tr

/-! ### Helper lemmas about the map model and the broadcasts -/

theorem mapGet_mapSet_self {κ α : Type} [DecidableEq κ] (m : List (κ × α))
    (k : κ) (v : α) : mapGet (mapSet m k v) k = some v := by
  unfold mapSet
  split
  · rename_i hany
    induction m with
    | nil => simp at hany
    | cons hd tl ih =>
      by_cases hk : hd.1 = k
      · simp [mapGet, List.find?_cons, hk]
      · simp only [List.any_cons, Bool.or_eq_true, decide_eq_true_eq] at hany
        have h' : tl.any (fun kv => decide (kv.1 = k)) = true := by
          rcases hany with h | h
          · exact absurd h hk
          · exact h
        have := ih h'
        simpa [mapGet, List.map_cons, List.find?_cons, hk] using this
  · rename_i hany
    have hnone : m.find? (fun kv => decide (kv.1 = k)) = none := by
      rw [List.find?_eq_none]
      intro x hx
      simp only [decide_eq_true_eq]
      intro hxk
      exact hany (List.any_eq_true.mpr ⟨x, hx, decide_eq_true hxk⟩)
    simp [mapGet, List.find?_append, hnone, List.find?_cons]

theorem mem_mapSet_ne {κ α : Type} [DecidableEq κ] (m : List (κ × α))
    (k c : κ) (v : α) (u : α) (hne : c ≠ k) :
    (c, u) ∈ mapSet m k v ↔ (c, u) ∈ m := by
  unfold mapSet
  split
  · constructor
    · intro h
      rcases List.mem_map.mp h with ⟨kv, hkv, heq⟩
      by_cases hk : kv.1 = k
      · simp [hk] at heq
        exact absurd heq.1.symm hne
      · simp [hk] at heq
        simpa [← heq] using hkv
    · intro h
      refine List.mem_map.mpr ⟨(c, u), h, ?_⟩
      simp [hne]
  · constructor
    · intro h
      rcases List.mem_append.mp h with h | h
      · exact h
      · simp at h
        exact absurd h.1 hne
    · intro h
      exact List.mem_append.mpr (Or.inl h)

theorem mem_mapDelete {κ α : Type} [DecidableEq κ] (m : List (κ × α))
    (k : κ) (kv : κ × α) : kv ∈ mapDelete m k ↔ kv ∈ m ∧ kv.1 ≠ k := by
  simp [mapDelete, List.mem_filter]

theorem nodup_keys_unique {κ α : Type} (l : List (κ × α))
    (h : (l.map Prod.fst).Nodup) {k : κ} {v v' : α}
    (h1 : (k, v) ∈ l) (h2 : (k, v') ∈ l) : v = v' := by
  induction l with
  | nil => simp at h1
  | cons hd tl ih =>
    simp only [List.map_cons, List.nodup_cons] at h
    rcases List.mem_cons.mp h1 with e1 | m1 <;> rcases List.mem_cons.mp h2 with e2 | m2
    · exact congrArg Prod.snd (e1.trans e2.symm)
    · exfalso
      exact h.1 (List.mem_map.mpr ⟨(k, v'), m2, by rw [← e1]⟩)
    · exfalso
      exact h.1 (List.mem_map.mpr ⟨(k, v), m1, by rw [← e2]⟩)
    · exact ih h.2 m1 m2

theorem mem_broadcastSignal (readyState : Conn → ReadyState)
    (registry : Registry) (s : Signal) (c : Conn) (m : WsMsg) :
    (c, m) ∈ broadcastSignal readyState registry s ↔
      m = .signal s ∧ ∃ u, (c, u) ∈ registry ∧ readyState c = .OPEN := by
  unfold broadcastSignal
  constructor
  · intro h
    rcases List.mem_map.mp h with ⟨cu, hcu, heq⟩
    rcases List.mem_filter.mp hcu with ⟨hmem, hcond⟩
    simp only [decide_eq_true_eq] at hcond
    obtain ⟨hc, hm⟩ := Prod.ext_iff.mp heq
    subst hc
    exact ⟨hm.symm, cu.2, hmem, hcond⟩
  · rintro ⟨rfl, u, hmem, hopen⟩
    refine List.mem_map.mpr ⟨(c, u), List.mem_filter.mpr ⟨hmem, ?_⟩, rfl⟩
    simpa using hopen

theorem mem_broadcastPosition (readyState : Conn → ReadyState)
    (registry : Registry) (p : Position) (a : String) (c : Conn) (m : WsMsg) :
    (c, m) ∈ broadcastPosition readyState registry p a ↔
      m = .position p ∧
        ∃ u, (c, u) ∈ registry ∧ readyState c = .OPEN ∧ u.accountNumber = a := by
  unfold broadcastPosition
  constructor
  · intro h
    rcases List.mem_map.mp h with ⟨cu, hcu, heq⟩
    rcases List.mem_filter.mp hcu with ⟨hmem, hcond⟩
    simp only [Bool.and_eq_true, decide_eq_true_eq] at hcond
    obtain ⟨hc, hm⟩ := Prod.ext_iff.mp heq
    subst hc
    exact ⟨hm.symm, cu.2, hmem, hcond.1, hcond.2⟩
  · rintro ⟨rfl, u, hmem, hopen, hacc⟩
    refine List.mem_map.mpr ⟨(c, u), List.mem_filter.mpr ⟨hmem, ?_⟩, rfl⟩
    simp [hopen, hacc]

theorem signalsPush_length_le (sigs : List Signal) (s : Signal)
    (h : sigs.length ≤ 50) : (signalsPush sigs s).length ≤ 50 := by
  simp only [signalsPush]
  split <;> simp_all

theorem foldl_signalsPush_length (inputs : List Signal) (init : List Signal)
    (h : init.length ≤ 50) : (inputs.foldl signalsPush init).length ≤ 50 := by
  induction inputs generalizing init with
  | nil => simpa using h
  | cons a l ih => exact ih _ (signalsPush_length_le init a h)

/-- A concrete signal used to instantiate witnesses. -/
def exampleSignal : Signal :=
  { id := "1", pair := "XAUUSD", action := "BUY", rsi := 30, macd := 1
    strength := 8, quality := 9, timestamp := 0 }

/-- A second concrete signal used to instantiate witnesses. -/
def exampleSignal2 : Signal :=
  { id := "2", pair := "EURUSD", action := "SELL", rsi := 70, macd := -1
    strength := 5, quality := 6, timestamp := 100 }

/-! ### Claim theorems -/

/-- C3: the signal sequence never exceeds 50 entries — each accepted
ingestion preserves the bound, any run of accepted ingestions from the
empty store stays within the bound — and eviction is oldest-first: a push
onto a full store of 50 drops the front element (signal #1). -/
theorem signals_bounded_fifo :
    (∀ (sigs : List Signal) (s : Signal), sigs.length ≤ 50 →
        (signalsPush sigs s).length ≤ 50) ∧
    (∀ inputs : List Signal, (inputs.foldl signalsPush []).length ≤ 50) ∧
    (∀ (sigs : List Signal) (s : Signal), sigs.length = 50 →
        signalsPush sigs s = sigs.tail ++ [s]) := by
  refine ⟨signalsPush_length_le, fun inputs => foldl_signalsPush_length inputs [] (by simp), ?_⟩
  intro sigs s h
  unfold signalsPush
  have hlen : (sigs ++ [s]).length > 50 := by simp [h]
  rw [if_pos hlen, List.drop_append_of_le_length (by omega), List.drop_one]

/-- C3 witness: a push on the empty store respects the bound, and a push
onto a full store of 50 copies of a signal evicts the front element. -/
theorem signals_bounded_fifo_witness :
    (signalsPush [] exampleSignal).length ≤ 50 ∧
    signalsPush (List.replicate 50 exampleSignal) exampleSignal2 =
      (List.replicate 50 exampleSignal).tail ++ [exampleSignal2] :=
  ⟨signals_bounded_fifo.1 [] exampleSignal (by simp),
   signals_bounded_fifo.2.2 (List.replicate 50 exampleSignal) exampleSignal2 (by simp)⟩

/-- C4: on a tick, every stored position is replaced by its updated image,
whose profit is (current − entry) × lots × 100 for a BUY position and
(entry − current) × lots × 100 otherwise, the price difference being taken
at the post-perturbation current price; in particular a BUY with entry
3893.45, updated current price 3900 and 1 lot has profit 655. -/
theorem tick_profit_formula :
    (∀ (rand : String → ℚ) (positions : List (String × Position)),
      ∀ kv ∈ positions,
        (kv.1, tickPosition (rand kv.1) kv.2) ∈ tickAll rand positions) ∧
    (∀ (rc : ℚ) (p : Position),
      (tickPosition rc p).profit =
        (if p.«type» = "BUY" then (tickPosition rc p).currentPrice - p.entryPrice
         else p.entryPrice - (tickPosition rc p).currentPrice) * p.lots * 100) ∧
    (∀ (rc : ℚ) (p : Position), p.«type» = "BUY" → p.entryPrice = 3893.45 →
      p.lots = 1 → p.currentPrice + rc = 3900 →
      (tickPosition rc p).profit = 655) := by
  refine ⟨?_, ?_, ?_⟩
  · intro rand positions kv hkv
    exact List.mem_map.mpr ⟨kv, hkv, rfl⟩
  · intro rc p
    simp only [tickPosition]
  · intro rc p htype hentry hlots hcur
    simp only [tickPosition, htype, hentry, hlots, hcur, if_pos rfl]
    norm_num

/-- A concrete BUY position used to instantiate witnesses. -/
def examplePositionBuy : Position :=
  { id := "7", accountNumber := "ACC1", pair := "XAUUSD", «type» := "BUY"
    lots := 1, entryPrice := 3893.45, currentPrice := 3899, profit := 0
    stopLoss := 0, takeProfit := 0, openTime := 7 }

/-- C4 witness: ticking the concrete BUY position with perturbation 1
lands its current price on 3900 and its profit on 655. -/
theorem tick_profit_formula_witness :
    (tickPosition 1 examplePositionBuy).profit = 655 :=
  tick_profit_formula.2.2 1 examplePositionBuy rfl rfl rfl (by norm_num [examplePositionBuy])

/-- C6: the authenticated signal read returns a stored signal `s` iff
`now - s.timestamp < 3600000`. -/
theorem getSignals_mem_iff (now : Int) (sigs : List Signal) (s : Signal) :
    s ∈ getSignals now sigs ↔ s ∈ sigs ∧ now - s.timestamp < 3600000 := by
  simp [getSignals, List.mem_filter]

/-- C8 counterexample: with a correct API key and a missing `signal`
object, the thrown `TypeError` is caught and surfaced as a 500, so the
response status is not in the 4xx range. -/
theorem postSignals_missing_body_not_4xx :
    ¬ (400 ≤ (postSignals "key" 0 [] (some "key") none).1.status ∧
        (postSignals "key" 0 [] (some "key") none).1.status < 500) := by
  decide

/-- C8 amended: with a correct API key and a missing `signal` object, the
ingestion endpoint responds 500 "Failed to process signal" and leaves the
signal store unchanged. -/
theorem postSignals_missing_body_500 (mt4ApiKey : String) (now : Int)
    (sigs : List Signal) :
    postSignals mt4ApiKey now sigs (some mt4ApiKey) none =
      (⟨500, .errorMsg "Failed to process signal"⟩, sigs) := by
  simp [postSignals]

/-- C10: position and signal ids are `Date.now().toString()` at creation,
so two open-trade requests processed at the same millisecond get the same
id and the second `positions.set` overwrites the first entry. -/
theorem ids_are_now_toString (now : Int) (m : List (String × Position))
    (a1 a2 : String) (b1 b2 : OpenBody) (sb : SignalBody) :
    (mkPosition now a1 b1).id = toString now ∧
    (mkSignal now sb).id = toString now ∧
    (openTrade now m a1 b1).1 = ⟨200, .success (toString now)⟩ ∧
    ((openTrade now m a1 b1).1 = (openTrade now m a2 b2).1 ∧
      mapGet (openTrade now (openTrade now m a1 b1).2 a2 b2).2 (toString now) =
        some (mkPosition now a2 b2)) := by
  refine ⟨rfl, rfl, rfl, rfl, ?_⟩
  simpa [openTrade, mkPosition] using
    mapGet_mapSet_self (openTrade now m a1 b1).2 (toString now) (mkPosition now a2 b2)

/-- C1: `broadcastPosition(e, A)` delivers to a connection iff it is
registered with an identity whose accountNumber is `A` and its transport is
`OPEN`; a connection bound (uniquely) to a different account never receives
the event. -/
theorem broadcastPosition_delivery (readyState : Conn → ReadyState)
    (registry : Registry) (position : Position) (a : String) (c : Conn)
    (hnodup : (registry.map Prod.fst).Nodup) :
    ((∃ m, (c, m) ∈ broadcastPosition readyState registry position a) ↔
      ∃ u, (c, u) ∈ registry ∧ readyState c = .OPEN ∧ u.accountNumber = a) ∧
    (∀ u, (c, u) ∈ registry → u.accountNumber ≠ a →
      ∀ m, (c, m) ∉ broadcastPosition readyState registry position a) := by
  constructor
  · constructor
    · rintro ⟨m, hm⟩
      exact ((mem_broadcastPosition readyState registry position a c m).mp hm).2
    · rintro ⟨u, hu, hopen, hacc⟩
      exact ⟨.position position,
        (mem_broadcastPosition readyState registry position a c _).mpr
          ⟨rfl, u, hu, hopen, hacc⟩⟩
  · intro u hu hne m hm
    obtain ⟨-, u', hu', -, hacc'⟩ :=
      (mem_broadcastPosition readyState registry position a c m).mp hm
    exact hne (by rw [nodup_keys_unique registry hnodup hu hu']; exact hacc')

/-- A concrete two-connection registry used to instantiate witnesses. -/
def exampleRegistry : Registry :=
  [(⟨0⟩, ⟨"A", "Demo"⟩), (⟨1⟩, ⟨"B", "Demo"⟩)]

/-- C1 witness: in the concrete registry, the connection bound to account
"B" does not receive the position event broadcast to account "A". -/
theorem broadcastPosition_delivery_witness :
    (Conn.mk 1, WsMsg.position examplePositionBuy) ∉
      broadcastPosition (fun _ => ReadyState.OPEN) exampleRegistry
        examplePositionBuy "A" :=
  (broadcastPosition_delivery (fun _ => ReadyState.OPEN) exampleRegistry
      examplePositionBuy "A" ⟨1⟩ (by decide)).2
    ⟨"B", "Demo"⟩ (by decide) (by decide) (WsMsg.position examplePositionBuy)

/-- The invariant that every stored position is keyed by its own id
(maintained by the open-trade handler, which uses `positions.set(position.id, ...)`). -/
def KeysMatchIds (positions : List (String × Position)) : Prop :=
  ∀ kv ∈ positions, kv.2.id = kv.1

/-- C5: closing an absent position, or one owned by another account, yields
404 and leaves the mapping unchanged; closing an owned position yields 200
and the position's id no longer occurs in the caller's subsequent listing. -/
theorem closeTrade_ownership (positions : List (String × Position))
    (caller pid : String) :
    (mapGet positions pid = none →
      closeTrade positions caller pid =
        (⟨404, .errorMsg "Position not found"⟩, positions)) ∧
    (∀ p, mapGet positions pid = some p → p.accountNumber ≠ caller →
      closeTrade positions caller pid =
        (⟨404, .errorMsg "Position not found"⟩, positions)) ∧
    (∀ p, mapGet positions pid = some p → p.accountNumber = caller →
      (closeTrade positions caller pid).1 = ⟨200, .successPlain⟩ ∧
      (KeysMatchIds positions →
        ∀ q ∈ getPositions (closeTrade positions caller pid).2 caller,
          q.id ≠ pid)) := by
  refine ⟨?_, ?_, ?_⟩
  · intro h
    simp [closeTrade, h]
  · intro p hp hne
    simp [closeTrade, hp, hne]
  · intro p hp hacc
    have hclose : closeTrade positions caller pid =
        (⟨200, .successPlain⟩, mapDelete positions pid) := by
      simp [closeTrade, hp, hacc]
    refine ⟨by rw [hclose], ?_⟩
    intro hkeys q hq
    rw [hclose] at hq
    simp only [getPositions, List.mem_filter, List.mem_map] at hq
    obtain ⟨⟨kv, hkv, rfl⟩, -⟩ := hq
    obtain ⟨hkmem, hkne⟩ := (mem_mapDelete positions pid kv).mp hkv
    rw [hkeys kv hkmem]
    exact hkne

/-- C5 witness: with the store holding the concrete position (id "7",
account "ACC1"), closing as "ACC2" is a 404 that leaves the store intact,
closing an absent id is a 404, and closing as "ACC1" succeeds and removes
the position from the subsequent listing. -/
theorem closeTrade_ownership_witness :
    closeTrade [("7", examplePositionBuy)] "ACC2" "7" =
      (⟨404, .errorMsg "Position not found"⟩, [("7", examplePositionBuy)]) ∧
    closeTrade [] "ACC1" "9" = (⟨404, .errorMsg "Position not found"⟩, []) ∧
    (closeTrade [("7", examplePositionBuy)] "ACC1" "7").1 =
      ⟨200, .successPlain⟩ ∧
    examplePositionBuy ∉
      getPositions (closeTrade [("7", examplePositionBuy)] "ACC1" "7").2 "ACC1" := by
  have h := closeTrade_ownership [("7", examplePositionBuy)] "ACC2" "7"
  have h0 := closeTrade_ownership ([] : List (String × Position)) "ACC1" "9"
  have h1 := closeTrade_ownership [("7", examplePositionBuy)] "ACC1" "7"
  have hown := h1.2.2 examplePositionBuy rfl rfl
  refine ⟨h.2.1 examplePositionBuy rfl (by decide), h0.1 rfl, hown.1, ?_⟩
  intro hmem
  exact hown.2 (by intro kv hkv; simp at hkv; subst hkv; rfl) examplePositionBuy hmem rfl

/-- The token verifier used to instantiate witnesses: exactly the token
"good" verifies, to the identity of account "A". -/
def exampleVerify (t : String) : Option Identity :=
  if t == "good" then some ⟨"A", "Demo"⟩ else none

/-- C7: when the token verifies, the gateway registers the connection under
its decoded identity and sends it exactly one `init` envelope whose payload
is a suffix of the signal store of length `min 10 (number of signals)`. -/
theorem valid_token_init_snapshot (verify : String → Option Identity)
    (signals : List Signal) (registry : Registry) (ws : Conn)
    (t : String) (decoded : Identity) (h : verify t = some decoded) :
    mapGet (handleConnection verify signals registry ws (some t)).1 ws =
      some decoded ∧
    (handleConnection verify signals registry ws (some t)).1 =
      mapSet registry ws decoded ∧
    ∃ snap,
      (handleConnection verify signals registry ws (some t)).2 =
        [(ws, WsMsg.init snap)] ∧
      snap.length = min 10 signals.length ∧ snap.IsSuffix signals := by
  have hh : handleConnection verify signals registry ws (some t) =
      (mapSet registry ws decoded,
       [(ws, WsMsg.init (signals.drop (signals.length - 10)))]) := by
    simp [handleConnection, h]
  refine ⟨?_, ?_, signals.drop (signals.length - 10), ?_, ?_, ?_⟩
  · rw [hh]
    exact mapGet_mapSet_self registry ws decoded
  · rw [hh]
  · rw [hh]
  · rw [List.length_drop]
    omega
  · exact List.drop_suffix _ _

/-- C7 witness: the token "good" verifies to account "A"'s identity, and the
connection is then registered under that identity. -/
theorem valid_token_init_snapshot_witness :
    exampleVerify "good" = some ⟨"A", "Demo"⟩ ∧
    mapGet (handleConnection exampleVerify [exampleSignal, exampleSignal2]
        [] ⟨3⟩ (some "good")).1 ⟨3⟩ = some ⟨"A", "Demo"⟩ :=
  ⟨rfl, (valid_token_init_snapshot exampleVerify [exampleSignal, exampleSignal2]
      [] ⟨3⟩ "good" ⟨"A", "Demo"⟩ rfl).1⟩

/-- C9: a login for an unknown accountNumber always succeeds — it creates a
demo user hashed from the supplied password and returns a signed token —
and an invalid-credentials outcome is only possible when the account was
already stored with a hash of a different password. -/
theorem login_autocreate (now : Int) (users : List (String × User))
    (a p : String) :
    (mapGet users a = none →
      (login now users a p).1 = .ok ⟨a, "Demo"⟩ a "Demo" ∧
      mapGet (login now users a p).2 a =
        some ⟨a, bcryptHash p, "Demo", true, now⟩) ∧
    (∀ q : String,
      (∀ u, mapGet users a = some u → u.password = bcryptHash q) →
      (login now users a p).1 = .invalidCredentials →
      mapGet users a ≠ none ∧ q ≠ p) := by
  constructor
  · intro h
    have hlogin : login now users a p =
        (.ok ⟨a, "Demo"⟩ a "Demo",
         mapSet users a ⟨a, bcryptHash p, "Demo", true, now⟩) := by
      simp [login, h, bcryptCompare]
    rw [hlogin]
    exact ⟨rfl, mapGet_mapSet_self users a _⟩
  · intro q hq hinv
    cases hget : mapGet users a with
    | none =>
      exfalso
      have hlogin : (login now users a p).1 = .ok ⟨a, "Demo"⟩ a "Demo" := by
        simp [login, hget, bcryptCompare]
      rw [hlogin] at hinv
      exact LoginResult.noConfusion hinv
    | some u =>
      refine ⟨by simp [hget], ?_⟩
      intro hqp
      have hpw := hq u hget
      have hlogin : (login now users a p).1 = .ok ⟨a, u.broker⟩ a u.broker := by
        simp [login, hget, bcryptCompare, hpw, hqp]
      rw [hlogin] at hinv
      exact LoginResult.noConfusion hinv

/-- A stored user whose password hash was made from "other", used to
instantiate witnesses. -/
def exampleUser : User :=
  { accountNumber := "123", password := bcryptHash "other", broker := "Demo"
    isDemo := true, createdAt := 0 }

/-- C9 witness: logging in to the fresh account "123" succeeds, and the
401 returned to a wrong password "pw" against the stored hash of "other"
forces the two passwords apart. -/
theorem login_autocreate_witness :
    (login 0 [] "123" "pw").1 = .ok ⟨"123", "Demo"⟩ "123" "Demo" ∧
    "other" ≠ "pw" :=
  ⟨((login_autocreate 0 [] "123" "pw").1 rfl).1,
   ((login_autocreate 0 [("123", exampleUser)] "123" "pw").2 "other"
      (by intro u hu; simp [mapGet] at hu; rw [← hu]; rfl)
      (by decide)).2⟩

/-- A connection attempt in `tr` for connection `c` is always rejected:
every connect event for `c` carries no token or a token that fails
verification. -/
def RejectedIn (verify : String → Option Identity) (c : Conn)
    (tr : List GatewayEvent) : Prop :=
  ∀ token, GatewayEvent.connect c token ∈ tr →
    token = none ∨ ∃ t, token = some t ∧ verify t = none

theorem runGatewayFrom_cons (verify : String → Option Identity)
    (readyState : Conn → ReadyState) (signals : List Signal)
    (registry : Registry) (e : GatewayEvent) (tr : List GatewayEvent) :
    runGatewayFrom verify readyState signals registry (e :: tr) =
      ((runGatewayFrom verify readyState signals
          (stepGateway verify readyState signals registry e).1 tr).1,
       (stepGateway verify readyState signals registry e).2 ++
         (runGatewayFrom verify readyState signals
           (stepGateway verify readyState signals registry e).1 tr).2) :=
  rfl

theorem runGatewayFrom_rejected (verify : String → Option Identity)
    (readyState : Conn → ReadyState) (signals : List Signal) (c : Conn)
    (tr : List GatewayEvent) (registry : Registry)
    (hreg : ∀ u, (c, u) ∉ registry) (h : RejectedIn verify c tr) :
    (∀ u, (c, u) ∉ (runGatewayFrom verify readyState signals registry tr).1) ∧
    (∀ m, (c, m) ∉ (runGatewayFrom verify readyState signals registry tr).2) := by
  induction tr generalizing registry with
  | nil =>
    exact ⟨hreg, by simp [runGatewayFrom]⟩
  | cons e tr ih =>
    have htr : RejectedIn verify c tr :=
      fun token ht => h token (List.mem_cons_of_mem _ ht)
    rw [runGatewayFrom_cons]
    obtain ⟨hreg', hsent⟩ :
        (∀ u, (c, u) ∉ (stepGateway verify readyState signals registry e).1) ∧
        (∀ m, (c, m) ∉ (stepGateway verify readyState signals registry e).2) := by
      cases e with
      | connect ws token =>
        cases token with
        | none =>
          simp only [stepGateway, handleConnection]
          exact ⟨hreg, by simp⟩
        | some t =>
          cases hv : verify t with
          | none =>
            simp only [stepGateway, handleConnection, hv]
            exact ⟨hreg, by simp⟩
          | some decoded =>
            have hws : ws ≠ c := by
              intro he
              subst he
              rcases h (some t) (List.mem_cons_self _ _) with hnone | ⟨t', ht', hv'⟩
              · exact Option.noConfusion hnone
              · rw [Option.some.injEq] at ht'
                subst ht'
                rw [hv] at hv'
                exact Option.noConfusion hv'
            simp only [stepGateway, handleConnection, hv]
            refine ⟨?_, ?_⟩
            · intro u hu
              exact hreg u
                ((mem_mapSet_ne registry ws c decoded u (Ne.symm hws)).mp hu)
            · intro m hm
              simp only [List.mem_singleton, Prod.mk.injEq] at hm
              exact hws hm.1.symm
      | close ws =>
        simp only [stepGateway]
        exact ⟨fun u hu => hreg u ((mem_mapDelete registry ws (c, u)).mp hu).1,
               by simp⟩
      | signalBroadcast s =>
        simp only [stepGateway]
        refine ⟨hreg, fun m hm => ?_⟩
        obtain ⟨-, u, hu, -⟩ :=
          (mem_broadcastSignal readyState registry s c m).mp hm
        exact hreg u hu
      | positionBroadcast p acc =>
        simp only [stepGateway]
        refine ⟨hreg, fun m hm => ?_⟩
        obtain ⟨-, u, hu, -, -⟩ :=
          (mem_broadcastPosition readyState registry p acc c m).mp hm
        exact hreg u hu
    have hih := ih _ hreg' htr
    exact ⟨hih.1,
      fun m hm => (List.mem_append.mp hm).elim (hsent m) (hih.2 m)⟩

/-- C2: over any run of the gateway, a connection all of whose connect
attempts carry no token or a token failing verification is never present
in `activeConnections` and never receives any delivered event. -/
theorem rejected_never_delivered (verify : String → Option Identity)
    (readyState : Conn → ReadyState) (signals : List Signal) (c : Conn)
    (tr : List GatewayEvent) (h : RejectedIn verify c tr) :
    (∀ u, (c, u) ∉ (runGateway verify readyState signals tr).1) ∧
    (∀ m, (c, m) ∉ (runGateway verify readyState signals tr).2) :=
  runGatewayFrom_rejected verify readyState signals c tr [] (by simp) h

/-- A concrete run: a tokenless attempt, a bad-token attempt, an admitted
connection, both broadcasts, then the admitted connection closing. -/
def exampleTrace : List GatewayEvent :=
  [GatewayEvent.connect ⟨0⟩ none,
   GatewayEvent.connect ⟨1⟩ (some "bad"),
   GatewayEvent.connect ⟨2⟩ (some "good"),
   GatewayEvent.signalBroadcast exampleSignal,
   GatewayEvent.positionBroadcast examplePositionBuy "A",
   GatewayEvent.close ⟨2⟩]

/-- C2 witness: in the concrete run, the tokenless connection ⟨0⟩ receives
no signal delivery. -/
theorem rejected_never_delivered_witness :
    (Conn.mk 0, WsMsg.signal exampleSignal) ∉
      (runGateway exampleVerify (fun _ => ReadyState.OPEN)
        [exampleSignal] exampleTrace).2 :=
  (rejected_never_delivered exampleVerify (fun _ => ReadyState.OPEN)
      [exampleSignal] ⟨0⟩ exampleTrace
      (by
        intro token ht
        simp only [exampleTrace, List.mem_cons, List.not_mem_nil, or_false] at ht
        rcases ht with h0 | h1 | h2 | h3 | h4 | h5
        · exact Or.inl (by injection h0)
        · injection h1 with hws htok
          exact absurd hws (by decide)
        · injection h2 with hws htok
          exact absurd hws (by decide)
        · exact GatewayEvent.noConfusion h3
        · exact GatewayEvent.noConfusion h4
        · exact GatewayEvent.noConfusion h5)).2
    (WsMsg.signal exampleSignal)

end TradingSignals
